import Mathlib

/-!
Verification of the SwiftLogistics warehouse middleware core against its
specification.  The JavaScript source is shallowly embedded:

* JS strings are lists of UTF-16 code units (`List Nat`); `charCodeAt` is the
  list element, `s.length` the list length.
* The WMS TCP protocol codec (`WMSProtocol.createMessage`, `parseMessage`,
  `calculateChecksum`, `handleClientData`, `broadcast`, `sendToClient`) is
  embedded over code-unit lists; `Date.now()` becomes an explicit parameter.
* The package lifecycle engine (`Package`, `PackageManager`, `WMSHandler`) is
  embedded with explicit state passing; thrown JS errors become `Except`.
* The TCP-HTTP adapter's pending-request correlator is embedded as a state
  machine over its two maps.
-/

/-- Decidable equality for `Except`, used to evaluate concrete scenarios. -/
instance {ε α : Type} [DecidableEq ε] [DecidableEq α] : DecidableEq (Except ε α)
  | .ok x, .ok y =>
    if h : x = y then isTrue (congrArg Except.ok h)
    else isFalse (fun he => h (Except.ok.inj he))
  | .error x, .error y =>
    if h : x = y then isTrue (congrArg Except.error h)
    else isFalse (fun he => h (Except.error.inj he))
  | .ok _, .error _ => isFalse (fun he => Except.noConfusion he)
  | .error _, .ok _ => isFalse (fun he => Except.noConfusion he)

/-! ## JS string and number primitives -/

def isDigitCode (c : Nat) : Bool := 48 ≤ c && c ≤ 57

def isHexDigitCode (c : Nat) : Bool :=
  (48 ≤ c && c ≤ 57) || (97 ≤ c && c ≤ 102) || (65 ≤ c && c ≤ 70)

def hexDigitVal (c : Nat) : Nat :=
  if 48 ≤ c && c ≤ 57 then c - 48
  else if 97 ≤ c && c ≤ 102 then c - 87
  else c - 55

/-- Value of a run of ASCII decimal digit codes, most significant first. -/
def digitsVal (l : List Nat) : Nat := l.foldl (fun a c => a * 10 + (c - 48)) 0

def hexVal (l : List Nat) : Nat := l.foldl (fun a c => a * 16 + hexDigitVal c) 0

/-- The ECMAScript WhiteSpace and LineTerminator code points recognised by
`String.prototype.trim` and `parseInt`. -/
def jsWhitespace : List Nat :=
  [9, 10, 11, 12, 13, 32, 160, 0x1680, 0x2000, 0x2001, 0x2002, 0x2003, 0x2004,
   0x2005, 0x2006, 0x2007, 0x2008, 0x2009, 0x200A, 0x2028, 0x2029, 0x202F,
   0x205F, 0x3000, 0xFEFF]

def isJsWhitespace (c : Nat) : Bool := jsWhitespace.contains c

/-- Decimal digit rendering with an accumulator; the fuel keeps the recursion
structural so that the kernel can evaluate it (fuel `n + 1` always suffices). -/
def natToStrGo : Nat → Nat → List Nat → List Nat
  | 0, _, acc => acc
  | fuel + 1, n, acc =>
    if n < 10 then (48 + n) :: acc
    else natToStrGo fuel (n / 10) ((48 + n % 10) :: acc)

/-- JS `n.toString()` for a non-negative integer, as ASCII digit codes. -/
def natToStr (n : Nat) : List Nat := natToStrGo (n + 1) n []

/-- JS `s.padStart(k, pad)` for a single padding code unit. -/
def padStart (k pad : Nat) (s : List Nat) : List Nat :=
  List.replicate (k - s.length) pad ++ s

/-- JS `s.trim()`. -/
def trimCodes (s : List Nat) : List Nat :=
  ((s.dropWhile isJsWhitespace).reverse.dropWhile isJsWhitespace).reverse

def parseIntDecimal (s : List Nat) : Option Nat :=
  let ds := s.takeWhile isDigitCode
  if ds.isEmpty then none else some (digitsVal ds)

def parseIntUnsigned (s : List Nat) : Option Nat :=
  match s with
  | c0 :: c1 :: rest =>
    if c0 = 48 ∧ (c1 = 120 ∨ c1 = 88) then
      let ds := rest.takeWhile isHexDigitCode
      if ds.isEmpty then none else some (hexVal ds)
    else parseIntDecimal (c0 :: c1 :: rest)
  | _ => parseIntDecimal s

/-- JS `parseInt(s)` with no radix argument: leading whitespace is skipped, an
optional sign and `0x`/`0X` prefix are handled, the longest digit run is
converted; `none` models `NaN`. -/
def jsParseInt (s : List Nat) : Option Int :=
  match s.dropWhile isJsWhitespace with
  | [] => none
  | c :: rest =>
    if c = 43 then (parseIntUnsigned rest).map (fun n => (n : Int))
    else if c = 45 then (parseIntUnsigned rest).map (fun n => -(n : Int))
    else (parseIntUnsigned (c :: rest)).map (fun n => (n : Int))

/-- ECMAScript ToIntegerOrInfinity of a `substring` index (NaN becomes 0),
clamped to `[0, n]`; `none` models NaN. -/
def clampIdx (n : Nat) : Option Int → Nat
  | none => 0
  | some v => if v < 0 then 0 else min v.toNat n

/-- JS `s.substring(a, b)`: both endpoints clamped, swapped when `a > b`. -/
def jsSubstring (s : List Nat) (a b : Option Int) : List Nat :=
  let x := clampIdx s.length a
  let y := clampIdx s.length b
  (s.drop (min x y)).take (max x y - min x y)

/-- JS `s.substring(a)`: from `a` (clamped) to the end of the string. -/
def jsSubstringFrom (s : List Nat) (a : Option Int) : List Nat :=
  s.drop (clampIdx s.length a)

/-! ## Frame codec (`WMSProtocol` in `protocol/tcp-protocol.js`) -/

/-- `WMSProtocol.calculateChecksum`: sum of the code units modulo 100, rendered
as a zero-padded 2-digit decimal string. -/
def calculateChecksum (data : List Nat) : List Nat :=
  padStart 2 48 (natToStr (data.sum % 100))

/-- `WMSProtocol.createMessage`.  `Date.now()` is the explicit parameter `ts`;
the JSON-serialized payload is passed as its list of code units. -/
def createMessage (type : List Nat) (ts : Nat) (jsonPayload : List Nat) : List Nat :=
  let timestamp := natToStr ts
  let length := padStart 4 48 (natToStr jsonPayload.length)
  let body := type ++ length ++ timestamp ++ jsonPayload
  body ++ calculateChecksum body

/-- Result of `WMSProtocol.parseMessage` (the `raw` echo field is omitted). -/
structure ParsedMessage where
  type : List Nat
  timestamp : Option Int
  payload : List Nat
  deriving Repr, DecidableEq

/-- `WMSProtocol.parseMessage`.  Successful `JSON.parse` of the payload is
modeled as carrying the raw payload code units; every failure path of the
source (`length < 26`, checksum mismatch, exceptions) returns `none`. -/
def parseMessage (raw : List Nat) : Option ParsedMessage :=
  if raw.length < 26 then none
  else
    let type := jsSubstring raw (some 0) (some 7)
    let lengthStr := jsSubstring raw (some 7) (some 11)
    let length := jsParseInt lengthStr
    let timestampStr := jsSubstring raw (some 11) (some 24)
    let payload := jsSubstring raw (some 24) (length.map (fun l => 24 + l))
    let checksum := jsSubstringFrom raw (length.map (fun l => 24 + l))
    let expectedChecksum := calculateChecksum (type ++ lengthStr ++ timestampStr ++ payload)
    if checksum ≠ expectedChecksum then none
    else some { type := type, timestamp := jsParseInt timestampStr, payload := payload }

/-- Code units of the message type `PKG_RCV`. -/
def pkgRcvCode : List Nat := [80, 75, 71, 95, 82, 67, 86]

/-- Code units of the message type `PKG_STR`. -/
def pkgStrCode : List Nat := [80, 75, 71, 95, 83, 84, 82]

/-- Code units of the message type `PKG_PCK`. -/
def pkgPckCode : List Nat := [80, 75, 71, 95, 80, 67, 75]

/-- Code units of the message type `PKG_LDD`. -/
def pkgLddCode : List Nat := [80, 75, 71, 95, 76, 68, 68]

/-- Code units of the message type `STS_REQ`. -/
def stsReqCode : List Nat := [83, 84, 83, 95, 82, 69, 81]

/-- Code units of the message type `STS_RSP`. -/
def stsRspCode : List Nat := [83, 84, 83, 95, 82, 83, 80]

/-- Code units of the message type `HBT_CHK`. -/
def hbtChkCode : List Nat := [72, 66, 84, 95, 67, 72, 75]

/-- Code units of the message type `ACK_MSG`. -/
def ackMsgCode : List Nat := [65, 67, 75, 95, 77, 83, 71]

/-- Code units of the message type `ERR_MSG`. -/
def errMsgCode : List Nat := [69, 82, 82, 95, 77, 83, 71]

/-- The closed set `MESSAGE_TYPES` of 7-character type codes. -/
def messageTypeCodes : List (List Nat) :=
  [pkgRcvCode, pkgStrCode, pkgPckCode, pkgLddCode, stsReqCode, stsRspCode,
   hbtChkCode, ackMsgCode, errMsgCode]

/-- Observable actions of `WMSProtocol.handleClientData` on one data chunk:
an `ERR_MSG` reply, an `ACK_MSG` reply, or dispatch of a parsed message. -/
inductive ClientAction where
  | sendErr : ClientAction
  | sendAck (originalType : List Nat) : ClientAction
  | dispatch (m : ParsedMessage) : ClientAction
  deriving Repr, DecidableEq

/-- `WMSProtocol.handleClientData`: the incoming chunk is trimmed and split on
newlines, and each piece is parsed immediately.  The function is stateless --
the source keeps no per-connection buffer, so this is the complete model of
what one transport read produces. -/
def handleClientData (data : List Nat) : List ClientAction :=
  let messages := (trimCodes data).splitOn 10
  messages.flatMap fun messageStr =>
    if messageStr.isEmpty then []
    else
      match parseMessage messageStr with
      | none => [ClientAction.sendErr]
      | some m => [ClientAction.sendAck m.type, ClientAction.dispatch m]

/-- Bytes `WMSProtocol.sendToClient` writes to the socket for one message:
the encoded frame followed by a newline. -/
def sendToClientWrite (type : List Nat) (ts : Nat) (payload : List Nat) : List Nat :=
  createMessage type ts payload ++ [10]

/-- Per-client bytes `WMSProtocol.broadcast` writes: the frame is encoded once
and `message + '\n'` is written to every client in the live set. -/
def broadcastWrites (clients : List Nat) (type : List Nat) (ts : Nat)
    (payload : List Nat) : List (Nat × List Nat) :=
  let message := createMessage type ts payload
  clients.map (fun c => (c, message ++ [10]))

/-! ## Package lifecycle engine (`models/package.js`, `handlers/wms-handler.js`)

Statuses, ids and messages are Lean `String`s (the source values are ASCII, so
code units and code points coincide); `new Date()` timestamps are an explicit
`now : Nat` parameter and ISO rendering is dropped. -/

/-- One entry of `Package.events` as pushed by `Package.addEvent`. -/
structure PkgEvent where
  eventType : String
  description : String
  timestamp : Nat
  location : Option String
  deriving Repr, DecidableEq

/-- The `Package` record. -/
structure Pkg where
  packageId : String
  clientId : String
  orderId : String
  items : List String
  deliveryAddress : Option String
  status : String
  location : Option String
  assignedVehicle : Option String
  events : List PkgEvent
  createdAt : Nat
  updatedAt : Nat
  deriving Repr, DecidableEq

/-- JS truthiness of an optional string argument: `null`/absent and `''` are
falsy. -/
def strTruthy : Option String → Bool
  | none => false
  | some s => s != ""

/-- JS `s || d` for an optional string `s`. -/
def strOrDefault (s : Option String) (d : String) : String :=
  match s with
  | some v => if v != "" then v else d
  | none => d

/-- `Package.addEvent`: appends to the history, stamping the current location. -/
def Pkg.addEvent (p : Pkg) (eventType description : String) (now : Nat) : Pkg :=
  { p with events := p.events ++
      [{ eventType := eventType, description := description, timestamp := now,
         location := p.location }] }

/-- `new Package(...)`: status `received`, empty history, then the seed event. -/
def newPackage (packageId clientId orderId : String) (items : List String)
    (deliveryAddress : Option String) (now : Nat) : Pkg :=
  Pkg.addEvent
    { packageId := packageId, clientId := clientId, orderId := orderId, items := items,
      deliveryAddress := deliveryAddress, status := "received", location := none,
      assignedVehicle := none, events := [], createdAt := now, updatedAt := now }
    "received" "Package received from client" now

def validStatuses : List String := ["received", "stored", "picked", "loaded"]

/-- `Package.updateStatus`; the thrown `Invalid status` error becomes
`Except.error`.  There is no transition guard: any valid status is accepted. -/
def Pkg.updateStatus (p : Pkg) (newStatus : String) (location : Option String)
    (description : Option String) (now : Nat) : Except String Pkg :=
  if validStatuses.contains newStatus then
    let p1 := { p with status := newStatus,
                       location := if strTruthy location then location else p.location,
                       updatedAt := now }
    .ok (p1.addEvent newStatus
      (strOrDefault description ("Package status updated to " ++ newStatus)) now)
  else
    .error ("Invalid status: " ++ newStatus ++
      ". Valid statuses: received, stored, picked, loaded")

/-- `Package.assignToVehicle`: set the vehicle and transition to `loaded`. -/
def Pkg.assignToVehicle (p : Pkg) (vehicleId : String) (now : Nat) : Except String Pkg :=
  Pkg.updateStatus { p with assignedVehicle := some vehicleId } "loaded" none
    (some ("Package loaded onto vehicle " ++ vehicleId)) now

/-! JS `Map` as an insertion-ordered association list: `set` replaces in place
or appends, `get` returns the unique entry, `delete` removes it. -/

def mapGet (m : List (String × α)) (k : String) : Option α :=
  (m.find? (fun kv => kv.1 == k)).map (fun kv => kv.2)

def mapHas (m : List (String × α)) (k : String) : Bool :=
  m.any (fun kv => kv.1 == k)

def mapSet (m : List (String × α)) (k : String) (v : α) : List (String × α) :=
  match m with
  | [] => [(k, v)]
  | kv :: t => if kv.1 == k then (k, v) :: t else kv :: mapSet t k v

def mapDelete (m : List (String × α)) (k : String) : List (String × α) :=
  m.filter (fun kv => kv.1 != k)

/-- The `PackageManager.packages` map, the single shared store of packages. -/
abbrev WMSState := List (String × Pkg)

/-- `PackageManager.addPackage`: an unconditional `Map.set` -- there is no
duplicate check, an existing entry with the same id is replaced. -/
def addPackage (st : WMSState) (pkg : Pkg) : WMSState := mapSet st pkg.packageId pkg

/-- `PackageManager.updatePackageStatus`: `.ok none` is the JS `null` return for
a missing package; `.error` is a thrown `Invalid status`.  The in-place
mutation of the stored package becomes a map update at the same key. -/
def updatePackageStatus (st : WMSState) (packageId newStatus : String)
    (location description : Option String) (now : Nat) :
    Except String (Option (WMSState × Pkg)) :=
  match mapGet st packageId with
  | none => .ok none
  | some pkg =>
    (pkg.updateStatus newStatus location description now).map
      (fun pkg' => some (mapSet st packageId pkg', pkg'))

/-- `PackageManager.assignPackageToVehicle`. -/
def assignPackageToVehicle (st : WMSState) (packageId vehicleId : String) (now : Nat) :
    Except String (Option (WMSState × Pkg)) :=
  match mapGet st packageId with
  | none => .ok none
  | some pkg =>
    (pkg.assignToVehicle vehicleId now).map
      (fun pkg' => some (mapSet st packageId pkg', pkg'))

/-- Argument object of `WMSHandler.receivePackage`. -/
structure PkgData where
  packageId : String
  clientId : String
  orderId : String
  items : List String
  deliveryAddress : Option String
  deriving Repr, DecidableEq

/-- `WMSHandler.receivePackage`.  The handler's JSON response object is
represented by the package the response fields are drawn from. -/
def receivePackage (st : WMSState) (d : PkgData) (now : Nat) :
    Except String (WMSState × Pkg) :=
  if d.packageId == "" || d.clientId == "" then
    .error "Package ID and Client ID are required"
  else
    let pkg := newPackage d.packageId d.clientId d.orderId d.items d.deliveryAddress now
    .ok (addPackage st pkg, pkg)

/-- `WMSHandler.storePackage`: no status guard -- it stores whatever package is
found, whatever its current status. -/
def storePackage (st : WMSState) (packageId location : String) (now : Nat) :
    Except String (WMSState × Pkg) :=
  match updatePackageStatus st packageId "stored" (some location)
      (some ("Package stored at " ++ location)) now with
  | .error e => .error e
  | .ok none => .error ("Package " ++ packageId ++ " not found")
  | .ok (some (st', pkg')) => .ok (st', pkg')

/-- `WMSHandler.pickPackage`: requires current status `stored`, with the thrown
message naming the current and expected status.  The final catch-all branch is
unreachable (the package was just found and `picked` is valid); in JS it would
be a crash on a `null` dereference. -/
def pickPackage (st : WMSState) (packageId : String) (now : Nat) :
    Except String (WMSState × Pkg) :=
  match mapGet st packageId with
  | none => .error ("Package " ++ packageId ++ " not found")
  | some pkg =>
    if pkg.status != "stored" then
      .error ("Package " ++ packageId ++ " is not ready for pickup. Current status: " ++
        pkg.status ++ ". Expected: stored")
    else
      match updatePackageStatus st packageId "picked" none
          (some "Package picked for order fulfillment") now with
      | .ok (some (st', pkg')) => .ok (st', pkg')
      | _ => .error "TypeError: Cannot read properties of null"

/-- `WMSHandler.loadPackage`: delegates to `assignPackageToVehicle` with no
status precondition at all. -/
def loadPackage (st : WMSState) (packageId vehicleId : String) (now : Nat) :
    Except String (WMSState × Pkg) :=
  match assignPackageToVehicle st packageId vehicleId now with
  | .error e => .error e
  | .ok none => .error ("Package " ++ packageId ++ " not found")
  | .ok (some (st', pkg')) => .ok (st', pkg')

/-- One engine operation, for reasoning about operation sequences. -/
inductive WMSOp where
  | receive (d : PkgData) (now : Nat)
  | store (packageId location : String) (now : Nat)
  | pick (packageId : String) (now : Nat)
  | load (packageId vehicleId : String) (now : Nat)
  deriving Repr, DecidableEq

def applyOp (st : WMSState) : WMSOp → Except String (WMSState × Pkg)
  | .receive d now => receivePackage st d now
  | .store id loc now => storePackage st id loc now
  | .pick id now => pickPackage st id now
  | .load id vid now => loadPackage st id vid now

/-- Effect of one operation on the shared store; a thrown error leaves the
store unchanged (in the source every mutation happens after all checks). -/
def stepOp (st : WMSState) (op : WMSOp) : WMSState :=
  match applyOp st op with
  | .ok (st', _) => st'
  | .error _ => st

def runOps (st : WMSState) : List WMSOp → WMSState
  | [] => st
  | op :: rest => runOps (stepOp st op) rest

/-- Rank of a status in the forward order Received < Stored < Picked < Loaded. -/
def statusRank (s : String) : Nat :=
  if s = "received" then 0 else if s = "stored" then 1 else if s = "picked" then 2 else 3

/-- The sequence of status ranks appearing in a package's event history. -/
def eventRanks (p : Pkg) : List Nat := p.events.map (fun e => statusRank e.eventType)

/-- Guard under which the amended monotonicity claim holds: `Store` is applied
only to packages currently `received` or `stored`.  The source never checks
this; it is exactly the caller-side discipline the spec asks for. -/
def opGuard (st : WMSState) : WMSOp → Bool
  | .store id _ _ =>
    match mapGet st id with
    | some pkg => pkg.status == "received" || pkg.status == "stored"
    | none => true
  | _ => true

def guardedSeq (st : WMSState) : List WMSOp → Bool
  | [] => true
  | op :: rest => opGuard st op && guardedSeq (stepOp st op) rest

/-- Store invariant: every package's event-status ranks are non-decreasing and
its last event mirrors its current status. -/
def storeInv (st : WMSState) : Prop :=
  ∀ kv ∈ st, (eventRanks kv.2).Chain' (· ≤ ·) ∧
    (kv.2.events.getLast?).map PkgEvent.eventType = some kv.2.status

/-- Substring containment on Lean strings, used to state that an error message
names a status. -/
def containsStr (hay needle : String) : Prop :=
  ∃ pre post, hay.data = pre ++ needle.data ++ post

/-! ## TCP-HTTP adapter correlator (`tcp-adapter-server.js`) -/

/-- Correlator state: `pendingRequests` (requestId -> issue time) and
`tcpResponses` (requestId -> stored response payload, kept abstract as code
units).  The source's lazy `this.tcpResponses = this.tcpResponses || new Map()`
is modeled by the map simply starting empty. -/
structure AdapterState where
  pendingRequests : List (String × Nat)
  tcpResponses : List (String × List Nat)
  deriving Repr, DecidableEq

/-- `sendTCPMessage` with a non-null `requestId` on a live connection: records
the pending request at the current time. -/
def sendTracked (s : AdapterState) (requestId : String) (now : Nat) : AdapterState :=
  { s with pendingRequests := mapSet s.pendingRequests requestId now }

/-- Outcome of one poll iteration of `waitForTCPResponse`. -/
inductive PollResult where
  | resolved (response : List Nat)
  | timedOut
  | again
  deriving Repr, DecidableEq

/-- One `checkResponse` poll iteration inside `waitForTCPResponse`: deliver a
stored response, or on deadline expiry delete the pending entry and reject. -/
def checkResponse (s : AdapterState) (requestId : String) (startTime timeout now : Nat) :
    AdapterState × PollResult :=
  match mapGet s.tcpResponses requestId with
  | some response =>
    ({ s with tcpResponses := mapDelete s.tcpResponses requestId }, .resolved response)
  | none =>
    if now - startTime > timeout then
      ({ s with pendingRequests := mapDelete s.pendingRequests requestId }, .timedOut)
    else (s, .again)

/-- `handleStatusResponse`: a `STS_RSP` whose payload carries `requestId` is
stored only while that id is still pending; otherwise nothing changes. -/
def handleStatusResponse (s : AdapterState) (requestId : String) (payload : List Nat) :
    AdapterState :=
  if mapHas s.pendingRequests requestId then
    { s with pendingRequests := mapDelete s.pendingRequests requestId,
             tcpResponses := mapSet s.tcpResponses requestId payload }
  else s

/-- Demo package data used in concrete counterexamples and witnesses. -/
def demoData : PkgData :=
  { packageId := "PKG1", clientId := "C1", orderId := "O1", items := ["a"],
    deliveryAddress := some "Addr" }

/-- Store state after receiving `PKG1` and storing it at `A1`. -/
def demoStoredState : WMSState :=
  runOps [] [WMSOp.receive demoData 0, WMSOp.store "PKG1" "A1" 1]

/-- Operation sequence receive, store, pick, load, then store again. -/
def demoOps : List WMSOp :=
  [WMSOp.receive demoData 0, WMSOp.store "PKG1" "A1" 1, WMSOp.pick "PKG1" 2,
   WMSOp.load "PKG1" "VH001" 3, WMSOp.store "PKG1" "B2" 4]

/-! ## Lemmas: decimal rendering and parsing -/

theorem natToStrGo_append : ∀ n : Nat, ∀ fuel acc, n < fuel →
    natToStrGo fuel n acc = natToStr n ++ acc := by
  intro n
  induction n using Nat.strong_induction_on with
  | _ n ih =>
    intro fuel acc hfuel
    obtain ⟨f, rfl⟩ : ∃ f, fuel = f + 1 := ⟨fuel - 1, by omega⟩
    by_cases h10 : n < 10
    · simp [natToStrGo, natToStr, h10]
    · have hdiv : n / 10 < n := Nat.div_lt_self (by omega) (by omega)
      have e1 : natToStrGo (f + 1) n acc = natToStrGo f (n / 10) ((48 + n % 10) :: acc) := by
        simp [natToStrGo, h10]
      have e2 : natToStr n = natToStrGo n (n / 10) [48 + n % 10] := by
        simp [natToStr, natToStrGo, h10]
      rw [e1, e2, ih _ hdiv f _ (by omega), ih _ hdiv n _ (by omega)]
      simp

theorem natToStr_lt10 {n : Nat} (h : n < 10) : natToStr n = [48 + n] := by
  simp [natToStr, natToStrGo, h]

theorem natToStr_ge10 {n : Nat} (h : 10 ≤ n) :
    natToStr n = natToStr (n / 10) ++ [48 + n % 10] := by
  have e2 : natToStr n = natToStrGo n (n / 10) [48 + n % 10] := by
    simp [natToStr, natToStrGo, Nat.not_lt.mpr h]
  rw [e2, natToStrGo_append (n / 10) n _ (by omega)]

theorem natToStr_ne_nil (n : Nat) : natToStr n ≠ [] := by
  by_cases h : n < 10
  · simp [natToStr_lt10 h]
  · rw [natToStr_ge10 (show 10 ≤ n by omega)]
    simp

theorem natToStr_digits (n : Nat) : ∀ c ∈ natToStr n, 48 ≤ c ∧ c ≤ 57 := by
  induction n using Nat.strong_induction_on with
  | _ n ih =>
    intro c hc
    by_cases h : n < 10
    · rw [natToStr_lt10 h] at hc
      simp at hc
      omega
    · rw [natToStr_ge10 (by omega)] at hc
      rcases List.mem_append.mp hc with hc | hc
      · exact ih (n / 10) (Nat.div_lt_self (by omega) (by omega)) c hc
      · have : n % 10 < 10 := Nat.mod_lt n (by omega)
        simp at hc
        omega

/-- Evaluating `digitsVal` from an arbitrary accumulator. -/
theorem digitsVal_foldl (l : List Nat) : ∀ a : Nat,
    l.foldl (fun a c => a * 10 + (c - 48)) a = a * 10 ^ l.length + digitsVal l := by
  induction l with
  | nil => intro a; simp [digitsVal]
  | cons c t ih =>
    intro a
    have hv : digitsVal (c :: t) = (c - 48) * 10 ^ t.length + digitsVal t := by
      show List.foldl _ (0 * 10 + (c - 48)) t = _
      rw [ih]
      simp
    show List.foldl _ (a * 10 + (c - 48)) t = _
    rw [ih, hv]
    simp [pow_succ]
    ring

theorem digitsVal_append (l₁ l₂ : List Nat) :
    digitsVal (l₁ ++ l₂) = digitsVal l₁ * 10 ^ l₂.length + digitsVal l₂ := by
  unfold digitsVal
  rw [List.foldl_append]
  exact digitsVal_foldl l₂ _

theorem digitsVal_natToStr (n : Nat) : digitsVal (natToStr n) = n := by
  induction n using Nat.strong_induction_on with
  | _ n ih =>
    by_cases h : n < 10
    · rw [natToStr_lt10 h]
      show (0 * 10 + (48 + n - 48)) = n
      omega
    · rw [natToStr_ge10 (by omega), digitsVal_append,
          ih (n / 10) (Nat.div_lt_self (by omega) (by omega))]
      have : digitsVal [48 + n % 10] = n % 10 := by
        show (0 * 10 + (48 + n % 10 - 48)) = n % 10
        omega
      rw [this]
      simp
      omega

theorem digitsVal_replicate48 (k : Nat) (l : List Nat) :
    digitsVal (List.replicate k 48 ++ l) = digitsVal l := by
  rw [digitsVal_append]
  have : digitsVal (List.replicate k 48) = 0 := by
    induction k with
    | zero => simp [digitsVal]
    | succ k ihk =>
      rw [List.replicate_succ]
      show List.foldl _ (0 * 10 + (48 - 48)) (List.replicate k 48) = 0
      simpa [digitsVal] using ihk
  rw [this]
  omega

theorem natToStr_length_le : ∀ k, 1 ≤ k → ∀ n : Nat, n < 10 ^ k →
    (natToStr n).length ≤ k := by
  intro k
  induction k with
  | zero => omega
  | succ k ih =>
    intro _ n hn
    by_cases h10 : n < 10
    · rw [natToStr_lt10 h10]
      simp
    · rw [natToStr_ge10 (show 10 ≤ n by omega)]
      cases k with
      | zero =>
        exfalso
        rw [zero_add, pow_one] at hn
        omega
      | succ k' =>
        have hdiv : n / 10 < 10 ^ (k' + 1) := by
          rw [pow_succ] at hn
          omega
        have := ih (by omega) (n / 10) hdiv
        simp
        omega

theorem natToStr_length_ge : ∀ k, ∀ n : Nat, 10 ^ k ≤ n →
    k + 1 ≤ (natToStr n).length := by
  intro k
  induction k with
  | zero =>
    intro n _
    have := natToStr_ne_nil n
    have := List.length_pos.mpr this
    omega
  | succ k ih =>
    intro n hn
    have hp : 1 ≤ 10 ^ k := Nat.one_le_pow _ _ (by omega)
    have h10 : 10 ≤ n := by
      rw [pow_succ] at hn
      omega
    rw [natToStr_ge10 h10]
    have hdiv : 10 ^ k ≤ n / 10 := by
      rw [Nat.le_div_iff_mul_le (by omega)]
      rw [pow_succ] at hn
      omega
    have := ih (n / 10) hdiv
    simp
    omega

theorem padStart_length (k pad : Nat) (s : List Nat) :
    (padStart k pad s).length = max k s.length := by
  simp [padStart]
  omega

theorem calculateChecksum_length (d : List Nat) : (calculateChecksum d).length = 2 := by
  unfold calculateChecksum
  rw [padStart_length]
  have h100 : d.sum % 100 < 100 := Nat.mod_lt _ (by omega)
  have := natToStr_length_le 2 (by omega) (d.sum % 100) (by omega)
  omega

theorem digitsVal_padStart (k n : Nat) :
    digitsVal (padStart k 48 (natToStr n)) = n := by
  unfold padStart
  rw [digitsVal_replicate48, digitsVal_natToStr]

theorem calculateChecksum_eq_iff (d₁ d₂ : List Nat) :
    calculateChecksum d₁ = calculateChecksum d₂ ↔ d₁.sum % 100 = d₂.sum % 100 := by
  constructor
  · intro h
    have := congrArg digitsVal h
    rwa [show calculateChecksum d₁ = padStart 2 48 (natToStr (d₁.sum % 100)) from rfl,
         show calculateChecksum d₂ = padStart 2 48 (natToStr (d₂.sum % 100)) from rfl,
         digitsVal_padStart, digitsVal_padStart] at this
  · intro h
    unfold calculateChecksum
    rw [h]

theorem digit_not_jsWhitespace {c : Nat} (h48 : 48 ≤ c) (h57 : c ≤ 57) :
    isJsWhitespace c = false := by
  simp [isJsWhitespace, jsWhitespace]
  omega

theorem parseIntDecimal_digits {l : List Nat} (hne : l ≠ [])
    (hd : ∀ c ∈ l, 48 ≤ c ∧ c ≤ 57) : parseIntDecimal l = some (digitsVal l) := by
  unfold parseIntDecimal
  have ht : l.takeWhile isDigitCode = l := by
    apply List.takeWhile_eq_self_iff.mpr
    intro c hc
    have := hd c hc
    simp [isDigitCode]
    omega
  simp only [ht]
  simp [hne]

theorem parseIntUnsigned_digits {l : List Nat} (hne : l ≠ [])
    (hd : ∀ c ∈ l, 48 ≤ c ∧ c ≤ 57) : parseIntUnsigned l = some (digitsVal l) := by
  match l with
  | [] => exact absurd rfl hne
  | [c] =>
    show parseIntDecimal [c] = _
    exact parseIntDecimal_digits (by simp) hd
  | c0 :: c1 :: rest =>
    have h1 := hd c1 (by simp)
    show (if c0 = 48 ∧ (c1 = 120 ∨ c1 = 88) then _ else parseIntDecimal (c0 :: c1 :: rest)) = _
    rw [if_neg (by rintro ⟨-, h | h⟩ <;> omega)]
    exact parseIntDecimal_digits (by simp) hd

theorem jsParseInt_digits {l : List Nat} (hne : l ≠ [])
    (hd : ∀ c ∈ l, 48 ≤ c ∧ c ≤ 57) : jsParseInt l = some ((digitsVal l : Nat) : Int) := by
  match l with
  | [] => exact absurd rfl hne
  | c :: rest =>
    have hc := hd c (by simp)
    have hws : isJsWhitespace c = false := digit_not_jsWhitespace hc.1 hc.2
    have hdrop : (c :: rest).dropWhile isJsWhitespace = c :: rest := by
      simp [List.dropWhile_cons, hws]
    simp only [jsParseInt, hdrop]
    rw [if_neg (by omega), if_neg (by omega),
        parseIntUnsigned_digits hne hd]
    rfl

theorem clampIdx_le (n : Nat) (x : Option Int) : clampIdx n x ≤ n := by
  match x with
  | none => simp [clampIdx]
  | some v =>
    simp only [clampIdx]
    split <;> omega

theorem clampIdx_some (n : Nat) (v : Int) (hv : 0 ≤ v) (h : v.toNat ≤ n) :
    clampIdx n (some v) = v.toNat := by
  simp only [clampIdx]
  rw [if_neg (by omega)]
  omega

theorem jsSubstring_lit (s : List Nat) (a b : Int) (ha : 0 ≤ a) (hab : a ≤ b)
    (hb : b.toNat ≤ s.length) :
    jsSubstring s (some a) (some b) = (s.drop a.toNat).take (b.toNat - a.toNat) := by
  simp only [jsSubstring, clampIdx_some s.length a ha (by omega),
    clampIdx_some s.length b (le_trans ha hab) hb]
  rw [show min a.toNat b.toNat = a.toNat by omega,
      show max a.toNat b.toNat = b.toNat by omega]

theorem jsSubstringFrom_lit (s : List Nat) (a : Int) (ha : 0 ≤ a)
    (h : a.toNat ≤ s.length) : jsSubstringFrom s (some a) = s.drop a.toNat := by
  simp only [jsSubstringFrom, clampIdx_some s.length a ha h]

theorem jsSubstringFrom_length (s : List Nat) (x : Option Int) :
    (jsSubstringFrom s x).length = s.length - clampIdx s.length x := by
  simp [jsSubstringFrom]

/-- The four positional slices of `parseMessage` reassemble the pre-checksum
part of the frame. -/
theorem partition24 (B : List Nat) :
    B.take 7 ++ (B.drop 7).take 4 ++ (B.drop 11).take 13 ++ B.drop 24 = B := by
  have h1 : (B.drop 7).drop 4 = B.drop 11 := by
    rw [List.drop_drop]
  have h2 : (B.drop 11).drop 13 = B.drop 24 := by
    rw [List.drop_drop]
  rw [List.append_assoc, List.append_assoc, ← h2, List.take_append_drop, ← h1,
      List.take_append_drop, List.take_append_drop]

/-- Characterization of `parseMessage` on a frame split as a pre-checksum part
`B` (type, length field, timestamp, payload) followed by a 2-character trailing
checksum `CK`: the parse succeeds exactly when the length field parses back to
the true payload length and the checksum matches. -/
theorem parseMessage_split (B CK : List Nat) (h24 : 24 ≤ B.length) (hCK : CK.length = 2) :
    parseMessage (B ++ CK) =
      match jsParseInt ((B.drop 7).take 4) with
      | none => none
      | some l =>
        if l = ((B.length - 24 : Nat) : Int) then
          (if CK ≠ calculateChecksum B then none
           else some { type := B.take 7, timestamp := jsParseInt ((B.drop 11).take 13),
                       payload := B.drop 24 })
        else none := by
  have hraw : (B ++ CK).length = B.length + 2 := by simp [hCK]
  have htype : jsSubstring (B ++ CK) (some 0) (some 7) = B.take 7 := by
    rw [jsSubstring_lit _ 0 7 (by norm_num) (by norm_num) (by simp [hraw]; omega),
        show ((0 : Int)).toNat = 0 from rfl, show ((7 : Int)).toNat = 7 from rfl,
        List.drop_zero, Nat.sub_zero]
    exact List.take_append_of_le_length (by omega)
  have hlstr : jsSubstring (B ++ CK) (some 7) (some 11) = (B.drop 7).take 4 := by
    rw [jsSubstring_lit _ 7 11 (by norm_num) (by norm_num) (by simp [hraw]; omega),
        show ((7 : Int)).toNat = 7 from rfl, show ((11 : Int)).toNat = 11 from rfl,
        show 11 - 7 = 4 from rfl,
        List.drop_append_of_le_length (by omega),
        List.take_append_of_le_length (by simp; omega)]
  have htstr : jsSubstring (B ++ CK) (some 11) (some 24) = (B.drop 11).take 13 := by
    rw [jsSubstring_lit _ 11 24 (by norm_num) (by norm_num) (by simp [hraw]; omega),
        show ((11 : Int)).toNat = 11 from rfl, show ((24 : Int)).toNat = 24 from rfl,
        show 24 - 11 = 13 from rfl,
        List.drop_append_of_le_length (by omega),
        List.take_append_of_le_length (by simp; omega)]
  unfold parseMessage
  rw [if_neg (by rw [hraw]; omega)]
  simp only [htype, hlstr, htstr]
  rcases hpi : jsParseInt ((B.drop 7).take 4) with _ | l
  · -- length field is NaN: the checksum slice is the whole frame, never 2 chars
    simp only [Option.map_none']
    rw [if_pos]
    intro he
    have hlen := congrArg List.length he
    rw [jsSubstringFrom_length, calculateChecksum_length] at hlen
    simp only [clampIdx] at hlen
    omega
  · simp only [Option.map_some']
    by_cases hl : l = ((B.length - 24 : Nat) : Int)
    · subst hl
      rw [if_pos rfl]
      have hidx : 24 + ((B.length - 24 : Nat) : Int) = ((B.length : Nat) : Int) := by
        push_cast [h24]
        omega
      rw [hidx]
      have hcs : jsSubstringFrom (B ++ CK) (some ((B.length : Nat) : Int)) = CK := by
        rw [jsSubstringFrom_lit _ _ (by positivity) (by simp [hraw])]
        simp
      have hpay : jsSubstring (B ++ CK) (some 24) (some ((B.length : Nat) : Int)) =
          B.drop 24 := by
        rw [jsSubstring_lit _ 24 _ (by norm_num) (by exact_mod_cast h24) (by simp [hraw]),
            show ((24 : Int)).toNat = 24 from rfl, Int.toNat_natCast,
            List.drop_append_of_le_length h24,
            List.take_append_of_le_length (by simp),
            show B.length - 24 = (B.drop 24).length by simp, List.take_length]
      rw [hcs, hpay, partition24]
    · rw [if_neg hl, if_pos]
      intro he
      have hlen := congrArg List.length he
      rw [jsSubstringFrom_length, calculateChecksum_length] at hlen
      have hle := clampIdx_le (B ++ CK).length (some (24 + l))
      have hclamp : clampIdx (B ++ CK).length (some (24 + l)) ≠ B.length := by
        simp only [clampIdx]
        split
        · omega
        · rw [hraw]
          omega
      omega

theorem parseMessage_split_some (B CK : List Nat) (h24 : 24 ≤ B.length)
    (hCK : CK.length = 2) {l : Int} (hpi : jsParseInt ((B.drop 7).take 4) = some l) :
    parseMessage (B ++ CK) =
      if l = ((B.length - 24 : Nat) : Int) then
        (if CK ≠ calculateChecksum B then none
         else some { type := B.take 7, timestamp := jsParseInt ((B.drop 11).take 13),
                     payload := B.drop 24 })
      else none := by
  rw [parseMessage_split B CK h24 hCK, hpi]

theorem parseMessage_split_none (B CK : List Nat) (h24 : 24 ≤ B.length)
    (hCK : CK.length = 2) (hpi : jsParseInt ((B.drop 7).take 4) = none) :
    parseMessage (B ++ CK) = none := by
  rw [parseMessage_split B CK h24 hCK, hpi]

theorem padStart4_digits (n : Nat) (c : Nat)
    (hc : c ∈ padStart 4 48 (natToStr n)) : 48 ≤ c ∧ c ≤ 57 := by
  rcases List.mem_append.mp hc with h | h
  · rw [List.eq_of_mem_replicate h]
    omega
  · exact natToStr_digits n c h

/-- Positional slices of a well-formed frame body `t ++ L ++ S ++ p` with a
7-character type, 4-character length field and 13-character timestamp. -/
theorem frame_slices (t L S p : List Nat) (h7 : t.length = 7) (hL : L.length = 4)
    (hS : S.length = 13) :
    (t ++ L ++ S ++ p).take 7 = t ∧
    ((t ++ L ++ S ++ p).drop 7).take 4 = L ∧
    ((t ++ L ++ S ++ p).drop 11).take 13 = S ∧
    (t ++ L ++ S ++ p).drop 24 = p := by
  refine ⟨?_, ?_, ?_, ?_⟩
  · rw [List.take_append_of_le_length (by simp only [List.length_append, h7, hL, hS]; omega),
        List.take_append_of_le_length (by simp only [List.length_append, h7, hL]; omega),
        List.take_left' h7]
  · rw [List.drop_append_of_le_length (by simp only [List.length_append, h7, hL, hS]; omega),
        List.drop_append_of_le_length (by simp only [List.length_append, h7, hL]; omega),
        List.drop_left' h7,
        List.take_append_of_le_length (by simp only [List.length_append, hL]; omega),
        List.take_left' hL]
  · rw [List.drop_append_of_le_length (by simp only [List.length_append, h7, hL, hS]; omega),
        List.drop_left' (show (t ++ L).length = 11 by
          simp only [List.length_append, h7, hL]),
        List.take_left' hS]
  · rw [List.drop_left' (show (t ++ L ++ S).length = 24 by
        simp only [List.length_append, h7, hL, hS])]

/-- C1: decoding an encoded frame recovers the type code, the timestamp and
exactly the payload bytes, for every type in the closed 7-character set, every
13-digit millisecond timestamp, and every serialized payload of at most 9999
code units (`JSON.parse` of the unchanged `JSON.stringify` output yields an
equal payload object, carried here by the payload code units). -/
theorem createMessage_roundtrip (type : List Nat) (ts : Nat) (payload : List Nat)
    (htype : type ∈ messageTypeCodes)
    (hts : 10 ^ 12 ≤ ts ∧ ts < 10 ^ 13)
    (hlen : payload.length ≤ 9999) :
    parseMessage (createMessage type ts payload) =
      some { type := type, timestamp := some (ts : Int), payload := payload } := by
  have h7 : type.length = 7 := by
    fin_cases htype <;> rfl
  have hL : (padStart 4 48 (natToStr payload.length)).length = 4 := by
    rw [padStart_length]
    have := natToStr_length_le 4 (by omega) payload.length (by norm_num; omega)
    omega
  have hS : (natToStr ts).length = 13 := by
    have h1 := natToStr_length_le 13 (by omega) ts hts.2
    have h2 := natToStr_length_ge 12 ts hts.1
    omega
  obtain ⟨ht7, hl4, hs13, hp24⟩ :=
    frame_slices type (padStart 4 48 (natToStr payload.length)) (natToStr ts) payload h7 hL hS
  have hB : (type ++ padStart 4 48 (natToStr payload.length) ++ natToStr ts ++
      payload).length = 24 + payload.length := by
    simp only [List.length_append, h7, hL, hS]
  have hLne : padStart 4 48 (natToStr payload.length) ≠ [] := by
    intro h
    rw [h] at hL
    simp at hL
  have hpi : jsParseInt (((type ++ padStart 4 48 (natToStr payload.length) ++ natToStr ts ++
      payload).drop 7).take 4) = some ((payload.length : Nat) : Int) := by
    rw [hl4, jsParseInt_digits hLne (padStart4_digits payload.length), digitsVal_padStart]
  have hcm : createMessage type ts payload =
      (type ++ padStart 4 48 (natToStr payload.length) ++ natToStr ts ++ payload) ++
        calculateChecksum
          (type ++ padStart 4 48 (natToStr payload.length) ++ natToStr ts ++ payload) := rfl
  rw [hcm, parseMessage_split_some _ _ (by omega) (calculateChecksum_length _) hpi,
      if_pos (by rw [hB]; congr 1; omega), if_neg (not_not_intro rfl),
      ht7, hs13, hp24, jsParseInt_digits (natToStr_ne_nil ts) (natToStr_digits ts),
      digitsVal_natToStr]

/-- Witness for C1 at a concrete frame. -/
theorem createMessage_roundtrip_witness :
    parseMessage (createMessage pkgRcvCode 1700000000000 [123, 34, 97, 34, 58, 49, 125]) =
      some { type := pkgRcvCode, timestamp := some (1700000000000 : Int),
             payload := [123, 34, 97, 34, 58, 49, 125] } :=
  createMessage_roundtrip pkgRcvCode 1700000000000 [123, 34, 97, 34, 58, 49, 125]
    (by decide) (by norm_num) (by decide)

/-- Replacing one element by a value that differs modulo 100 changes the list
sum modulo 100. -/
theorem sum_set_mod (l : List Nat) (i c' : Nat) (hi : i < l.length)
    (hne : c' % 100 ≠ (l.getD i 0) % 100) :
    (l.set i c').sum % 100 ≠ l.sum % 100 := by
  induction l generalizing i with
  | nil => simp at hi
  | cons a t ih =>
    cases i with
    | zero =>
      simp only [List.set_cons_zero, List.sum_cons, List.getD_cons_zero] at hne ⊢
      omega
    | succ j =>
      simp only [List.set_cons_succ, List.sum_cons, List.getD_cons_succ] at hne ⊢
      have := ih j (by simpa using hi) hne
      omega

/-- C2 counterexample: in the frame for payload `{"a":"x"}`, replacing the
payload byte `x` (0x78) at frame position 30 by 0xDC (`Ü`) shifts the byte sum
by exactly 100, so the stored checksum still matches: `parseMessage` accepts
the corrupted frame and returns the wrong payload `{"a":"Ü"}` (valid JSON)
instead of a `ChecksumMismatch` rejection. -/
theorem singleByteFlip_accepted_counterexample :
    parseMessage ((createMessage pkgRcvCode 1700000000000
        [123, 34, 97, 34, 58, 34, 120, 34, 125]).set 30 220) =
      some { type := pkgRcvCode, timestamp := some (1700000000000 : Int),
             payload := [123, 34, 97, 34, 58, 34, 220, 34, 125] } ∧
    [123, 34, 97, 34, 58, 34, 220, 34, 125] ≠ [123, 34, 97, 34, 58, 34, 120, 34, 125] := by
  decide

/-- C2 amended: flipping a single code unit anywhere in the header or payload
of an encoded frame to a value that differs from the original modulo 100 makes
`parseMessage` reject the frame (return `none`, the checksum-mismatch path); a
flip by a multiple of 100 can be silently accepted with a wrong payload, as
the counterexample shows. -/
theorem singleByteFlip_rejected (type : List Nat) (ts : Nat) (payload : List Nat)
    (htype : type ∈ messageTypeCodes)
    (hts : 10 ^ 12 ≤ ts ∧ ts < 10 ^ 13)
    (hlen : payload.length ≤ 9999) (i c' : Nat)
    (hi : i < 24 + payload.length)
    (hc' : c' % 100 ≠ ((createMessage type ts payload).getD i 0) % 100) :
    parseMessage ((createMessage type ts payload).set i c') = none := by
  have h7 : type.length = 7 := by
    fin_cases htype <;> rfl
  have hL : (padStart 4 48 (natToStr payload.length)).length = 4 := by
    rw [padStart_length]
    have := natToStr_length_le 4 (by omega) payload.length (by norm_num; omega)
    omega
  have hS : (natToStr ts).length = 13 := by
    have h1 := natToStr_length_le 13 (by omega) ts hts.2
    have h2 := natToStr_length_ge 12 ts hts.1
    omega
  have hB : (type ++ padStart 4 48 (natToStr payload.length) ++ natToStr ts ++
      payload).length = 24 + payload.length := by
    simp only [List.length_append, h7, hL, hS]
  have hiB : i < (type ++ padStart 4 48 (natToStr payload.length) ++ natToStr ts ++
      payload).length := by
    omega
  have hcm : createMessage type ts payload =
      (type ++ padStart 4 48 (natToStr payload.length) ++ natToStr ts ++ payload) ++
        calculateChecksum
          (type ++ padStart 4 48 (natToStr payload.length) ++ natToStr ts ++ payload) := rfl
  rw [hcm] at hc' ⊢
  rw [List.getD_append _ _ _ _ hiB] at hc'
  rw [List.set_append_left _ _ hiB]
  have hsum := sum_set_mod _ i c' hiB hc'
  have hcs : calculateChecksum
      (type ++ padStart 4 48 (natToStr payload.length) ++ natToStr ts ++ payload) ≠
      calculateChecksum
      ((type ++ padStart 4 48 (natToStr payload.length) ++ natToStr ts ++
        payload).set i c') := by
    intro h
    exact hsum ((calculateChecksum_eq_iff _ _).mp h.symm)
  have hlen' : 24 ≤ ((type ++ padStart 4 48 (natToStr payload.length) ++ natToStr ts ++
      payload).set i c').length := by
    rw [List.length_set]
    omega
  rcases hpi : jsParseInt ((((type ++ padStart 4 48 (natToStr payload.length) ++
      natToStr ts ++ payload).set i c').drop 7).take 4) with _ | l
  · exact parseMessage_split_none _ _ hlen' (calculateChecksum_length _) hpi
  · rw [parseMessage_split_some _ _ hlen' (calculateChecksum_length _) hpi]
    by_cases hl : l = ((((type ++ padStart 4 48 (natToStr payload.length) ++ natToStr ts ++
        payload).set i c').length - 24 : Nat) : Int)
    · rw [if_pos hl, if_pos hcs]
    · rw [if_neg hl]

/-- Witness for the amended C2 at a concrete frame and position. -/
theorem singleByteFlip_rejected_witness :
    parseMessage ((createMessage pkgRcvCode 1700000000000
        [123, 34, 97, 34, 58, 49, 125]).set 0 81) = none :=
  singleByteFlip_rejected pkgRcvCode 1700000000000 [123, 34, 97, 34, 58, 49, 125]
    (by decide) (by norm_num) (by decide) 0 81 (by decide) (by decide)

theorem padStart4_of_ge (s : List Nat) (h : 5 ≤ s.length) : padStart 4 48 s = s := by
  unfold padStart
  rw [show 4 - s.length = 0 by omega]
  simp

/-- C7 amended: `createMessage` performs no size check at all.  For a payload
serializing to more than 9999 code units it still returns a frame (no error is
thrown and nothing is truncated): `padStart` leaves the now at-least-5-digit
length rendering unchanged, so the emitted frame no longer matches the
documented 4-digit `[LENGTH:4]` layout. -/
theorem createMessage_no_overflow_check (type : List Nat) (ts : Nat) (payload : List Nat)
    (hlen : 9999 < payload.length) :
    createMessage type ts payload =
      type ++ natToStr payload.length ++ natToStr ts ++ payload ++
        calculateChecksum (type ++ natToStr payload.length ++ natToStr ts ++ payload) ∧
    4 < (natToStr payload.length).length := by
  have h5 : 5 ≤ (natToStr payload.length).length := by
    have := natToStr_length_ge 4 payload.length (by norm_num; omega)
    omega
  refine ⟨?_, by omega⟩
  show (type ++ padStart 4 48 (natToStr payload.length) ++ natToStr ts ++ payload) ++
      calculateChecksum
        (type ++ padStart 4 48 (natToStr payload.length) ++ natToStr ts ++ payload) = _
  rw [padStart4_of_ge _ h5]

/-- Witness for the amended C7 at a concrete 10000-byte payload. -/
theorem createMessage_no_overflow_check_witness :
    9999 < (List.replicate 10000 97 : List Nat).length ∧
    4 < (natToStr (List.replicate 10000 97 : List Nat).length).length :=
  ⟨by rw [List.length_replicate]; decide,
   (createMessage_no_overflow_check pkgRcvCode 1700000000000 (List.replicate 10000 97)
      (by rw [List.length_replicate]; decide)).2⟩

/-- C7 counterexample: on a 10000-byte payload `createMessage` does not fail:
it returns a 10027-character frame string, and the 4-character length field at
the documented positions 7..11 of that frame reads `1000`, which does not
describe the 10000-byte payload. -/
theorem createMessage_overflow_counterexample :
    (createMessage pkgRcvCode 1700000000000 (List.replicate 10000 97)).length = 10027 ∧
    ((createMessage pkgRcvCode 1700000000000 (List.replicate 10000 97)).drop 7).take 4 =
      [49, 48, 48, 48] ∧
    jsParseInt [49, 48, 48, 48] = some 1000 ∧
    (List.replicate 10000 97 : List Nat).length = 10000 := by
  have hN : natToStr 10000 = [49, 48, 48, 48, 48] := by decide
  have hcm : createMessage pkgRcvCode 1700000000000 (List.replicate 10000 97) =
      (pkgRcvCode ++ natToStr 10000 ++ natToStr 1700000000000 ++ List.replicate 10000 97) ++
        calculateChecksum
          (pkgRcvCode ++ natToStr 10000 ++ natToStr 1700000000000 ++
            List.replicate 10000 97) := by
    show (pkgRcvCode ++ padStart 4 48 (natToStr (List.replicate 10000 97 : List Nat).length) ++
        natToStr 1700000000000 ++ List.replicate 10000 97) ++ _ = _
    rw [List.length_replicate, padStart4_of_ge _ (by rw [hN]; decide)]
  have hS : (natToStr 1700000000000).length = 13 := by decide
  have hN5 : (natToStr 10000).length = 5 := by rw [hN]; rfl
  have hP : pkgRcvCode.length = 7 := rfl
  refine ⟨?_, ?_, by decide, by rw [List.length_replicate]⟩
  · rw [hcm]
    norm_num [List.length_append, List.length_replicate, calculateChecksum_length,
      hP, hN5, hS]
  · rw [hcm,
        List.drop_append_of_le_length (by
          simp only [List.length_append, List.length_replicate, hP, hN5, hS]; omega),
        List.drop_append_of_le_length (by
          simp only [List.length_append, hP, hN5, hS]; omega),
        List.drop_append_of_le_length (by
          simp only [List.length_append, hP, hN5]; omega),
        List.drop_left' hP,
        List.take_append_of_le_length (by
          simp only [List.length_append, List.length_replicate, hN5, hS]; omega),
        List.take_append_of_le_length (by
          simp only [List.length_append, hN5, hS]; omega),
        List.take_append_of_le_length (by rw [hN5]; omega),
        hN]
    decide

/-- C8: `handleClientData` keeps no per-connection buffer.  For a valid frame
split into two transport reads, the first (partial) chunk is immediately
answered with an `ERR_MSG` and discarded (the function is a pure function of
the single chunk, so nothing is retained), the second chunk is likewise
rejected, and the frame is decoded only when it arrives in one read. -/
theorem handleClientData_discards_partial_frames :
    handleClientData ((createMessage pkgRcvCode 1700000000000
        [123, 34, 97, 34, 58, 49, 125]).take 10) = [ClientAction.sendErr] ∧
    handleClientData ((createMessage pkgRcvCode 1700000000000
        [123, 34, 97, 34, 58, 49, 125]).drop 10) = [ClientAction.sendErr] ∧
    handleClientData (createMessage pkgRcvCode 1700000000000
        [123, 34, 97, 34, 58, 49, 125]) =
      [ClientAction.sendAck pkgRcvCode,
       ClientAction.dispatch { type := pkgRcvCode, timestamp := some (1700000000000 : Int),
                               payload := [123, 34, 97, 34, 58, 49, 125] }] := by
  decide

/-- C10: every message the hub writes -- via `broadcast` to each live client,
or via `sendToClient` -- is the encoded frame followed by one extra newline
character, not the bare frame of the documented wire layout. -/
theorem hub_writes_frame_plus_newline (clients : List Nat) (c : Nat) (type : List Nat)
    (ts : Nat) (payload : List Nat) :
    (∀ w, (c, w) ∈ broadcastWrites clients type ts payload →
        w = createMessage type ts payload ++ [10]) ∧
    sendToClientWrite type ts payload = createMessage type ts payload ++ [10] ∧
    sendToClientWrite type ts payload ≠ createMessage type ts payload ∧
    (broadcastWrites clients type ts payload).map Prod.fst = clients := by
  refine ⟨?_, rfl, ?_, ?_⟩
  · intro w hw
    simp only [broadcastWrites, List.mem_map] at hw
    obtain ⟨x, _, he⟩ := hw
    cases he
    rfl
  · intro h
    have := congrArg List.length h
    simp [sendToClientWrite] at this
  · simp only [broadcastWrites, List.map_map]
    exact List.map_id clients

/-- Witness for C10 on a concrete client set and payload. -/
theorem hub_writes_frame_plus_newline_witness :
    sendToClientWrite pkgRcvCode 1700000000000 [49] =
      createMessage pkgRcvCode 1700000000000 [49] ++ [10] ∧
    (broadcastWrites [3, 7] pkgRcvCode 1700000000000 [49]).map Prod.fst = [3, 7] :=
  ⟨(hub_writes_frame_plus_newline [3, 7] 3 pkgRcvCode 1700000000000 [49]).2.1,
   (hub_writes_frame_plus_newline [3, 7] 3 pkgRcvCode 1700000000000 [49]).2.2.2⟩

/-! ## Lemmas: JS `Map` operations -/

theorem mapGet_set_self (m : List (String × α)) (k : String) (v : α) :
    mapGet (mapSet m k v) k = some v := by
  induction m with
  | nil => simp [mapSet, mapGet]
  | cons kv t ih =>
    unfold mapSet
    by_cases h : kv.1 == k
    · rw [if_pos h]
      simp [mapGet]
    · rw [if_neg h]
      unfold mapGet at ih ⊢
      rw [List.find?_cons_of_neg _ (by simpa using h)]
      exact ih

theorem mem_mapSet {m : List (String × α)} {k : String} {v : α} {kv' : String × α}
    (h : kv' ∈ mapSet m k v) : kv' ∈ m ∨ kv' = (k, v) := by
  induction m with
  | nil =>
    simp [mapSet] at h
    exact Or.inr h
  | cons kv t ih =>
    unfold mapSet at h
    by_cases hk : kv.1 == k
    · rw [if_pos hk] at h
      rcases List.mem_cons.mp h with h | h
      · exact Or.inr h
      · exact Or.inl (List.mem_cons_of_mem _ h)
    · rw [if_neg hk] at h
      rcases List.mem_cons.mp h with h | h
      · exact Or.inl (h ▸ List.mem_cons_self kv t)
      · rcases ih h with h | h
        · exact Or.inl (List.mem_cons_of_mem _ h)
        · exact Or.inr h

theorem mapGet_mem {m : List (String × α)} {k : String} {v : α}
    (h : mapGet m k = some v) : (k, v) ∈ m := by
  unfold mapGet at h
  cases hf : m.find? (fun kv => kv.1 == k) with
  | none => rw [hf] at h; simp at h
  | some kv =>
    rw [hf] at h
    simp only [Option.map_some', Option.some.injEq] at h
    have hm := List.mem_of_find?_eq_some hf
    have hp : kv.1 = k := by simpa using List.find?_some hf
    obtain ⟨k1, v1⟩ := kv
    cases hp
    cases h
    exact hm

theorem mapSet_of_not_has (m : List (String × α)) (k : String) (v : α)
    (h : mapHas m k = false) : mapSet m k v = m ++ [(k, v)] := by
  induction m with
  | nil => rfl
  | cons kv t ih =>
    rw [mapHas] at h
    simp only [List.any_cons, Bool.or_eq_false_iff] at h
    unfold mapSet
    rw [if_neg (by simp [h.1]), ih h.2]
    rfl

theorem mapDelete_of_not_has (m : List (String × α)) (k : String)
    (h : mapHas m k = false) : mapDelete m k = m := by
  unfold mapDelete
  apply List.filter_eq_self.mpr
  intro kv hkv
  rw [mapHas] at h
  have := List.any_eq_false.mp h kv hkv
  simpa using this

theorem mapDelete_append_singleton (m : List (String × α)) (k : String) (v : α) :
    mapDelete (m ++ [(k, v)]) k = mapDelete m k := by
  unfold mapDelete
  rw [List.filter_append]
  simp

theorem mapHas_delete (m : List (String × α)) (k : String) :
    mapHas (mapDelete m k) k = false := by
  unfold mapHas mapDelete
  rw [List.any_eq_false]
  intro kv hkv
  have := (List.mem_filter.mp hkv).2
  simpa using this

/-! ## Lemmas: package lifecycle -/

/-- C3 amended: `receivePackage` never checks for duplicates.  Whenever the
required fields are non-empty it succeeds, storing a fresh package in status
`received` with exactly the one seed event at the given id -- replacing any
package already stored under that id. -/
theorem receivePackage_overwrites (st : WMSState) (d : PkgData) (now : Nat)
    (hp : d.packageId ≠ "") (hc : d.clientId ≠ "") :
    receivePackage st d now =
      .ok (mapSet st d.packageId
            (newPackage d.packageId d.clientId d.orderId d.items d.deliveryAddress now),
           newPackage d.packageId d.clientId d.orderId d.items d.deliveryAddress now) ∧
    mapGet (mapSet st d.packageId
        (newPackage d.packageId d.clientId d.orderId d.items d.deliveryAddress now))
        d.packageId =
      some (newPackage d.packageId d.clientId d.orderId d.items d.deliveryAddress now) ∧
    (newPackage d.packageId d.clientId d.orderId d.items d.deliveryAddress now).status =
      "received" ∧
    (newPackage d.packageId d.clientId d.orderId d.items d.deliveryAddress now).events =
      [{ eventType := "received", description := "Package received from client",
         timestamp := now, location := none }] := by
  refine ⟨?_, mapGet_set_self .., rfl, rfl⟩
  unfold receivePackage
  rw [if_neg (by simp [hp, hc])]
  rfl

/-- Witness for the amended C3: receiving the same id twice succeeds both
times. -/
theorem receivePackage_overwrites_witness :
    receivePackage [("PKG1", newPackage "PKG1" "C1" "O1" ["a"] (some "Addr") 0)]
        demoData 5 =
      .ok (mapSet [("PKG1", newPackage "PKG1" "C1" "O1" ["a"] (some "Addr") 0)] "PKG1"
            (newPackage "PKG1" "C1" "O1" ["a"] (some "Addr") 5),
           newPackage "PKG1" "C1" "O1" ["a"] (some "Addr") 5) :=
  (receivePackage_overwrites [("PKG1", newPackage "PKG1" "C1" "O1" ["a"] (some "Addr") 0)]
    demoData 5 (by decide) (by decide)).1

/-- C3 counterexample: with `PKG1` already present in status `stored` with two
events, `receivePackage` for the same id does not fail with a duplicate error:
it succeeds, and the stored package afterwards is a fresh one in status
`received` with a single event -- the existing package is not left unchanged. -/
theorem receivePackage_duplicate_counterexample :
    (mapGet demoStoredState "PKG1").map (fun p => (p.status, p.events.length)) =
      some ("stored", 2) ∧
    (receivePackage demoStoredState demoData 2).map
        (fun r => (mapGet r.1 "PKG1").map (fun p => (p.status, p.events.length))) =
      .ok (some ("received", 1)) := by
  decide

/-- C5: for a package that exists but is not `stored`, `pickPackage` throws the
invalid-transition error, whose message contains both the current status and
the expected status `stored`; for a package in status `stored` it succeeds and
the stored package transitions to `picked`. -/
theorem pickPackage_guard (st : WMSState) (id : String) (now : Nat) :
    (∀ pkg, mapGet st id = some pkg → pkg.status ≠ "stored" →
      pickPackage st id now = .error ("Package " ++ id ++
          " is not ready for pickup. Current status: " ++ pkg.status ++
          ". Expected: stored") ∧
      containsStr ("Package " ++ id ++ " is not ready for pickup. Current status: " ++
          pkg.status ++ ". Expected: stored") pkg.status ∧
      containsStr ("Package " ++ id ++ " is not ready for pickup. Current status: " ++
          pkg.status ++ ". Expected: stored") "stored") ∧
    (∀ pkg, mapGet st id = some pkg → pkg.status = "stored" →
      (pickPackage st id now).map
          (fun r => ((mapGet r.1 id).map Pkg.status, r.2.status)) =
        .ok (some "picked", "picked")) := by
  constructor
  · intro pkg hget hne
    refine ⟨?_, ?_, ?_⟩
    · simp only [pickPackage, hget]
      rw [if_pos (by simpa using hne)]
    · refine ⟨("Package " ++ id ++ " is not ready for pickup. Current status: ").data,
        (". Expected: stored" : String).data, ?_⟩
      simp [String.data_append, List.append_assoc]
    · have hsplit : (". Expected: stored" : String).data =
          (". Expected: " : String).data ++ ("stored" : String).data := rfl
      refine ⟨("Package " ++ id ++ " is not ready for pickup. Current status: " ++
        pkg.status ++ ". Expected: ").data, [], ?_⟩
      simp [String.data_append, List.append_assoc, hsplit]
  · intro pkg hget heq
    simp only [pickPackage, hget]
    rw [if_neg (by simp [heq])]
    simp only [updatePackageStatus, hget, Pkg.updateStatus]
    rw [if_pos (by decide)]
    simp [Except.map, mapGet_set_self, Pkg.addEvent]

/-- Witness for C5: pick directly after receive (without store) fails naming
the `received` and `stored` statuses, matching concrete scenario 3. -/
theorem pickPackage_guard_witness :
    pickPackage [("PKG1", newPackage "PKG1" "C1" "O1" ["a"] (some "Addr") 0)] "PKG1" 1 =
      .error
        "Package PKG1 is not ready for pickup. Current status: received. Expected: stored" :=
  (((pickPackage_guard [("PKG1", newPackage "PKG1" "C1" "O1" ["a"] (some "Addr") 0)]
      "PKG1" 1).1 (newPackage "PKG1" "C1" "O1" ["a"] (some "Addr") 0)
      (by decide) (by decide)).1).trans (congrArg Except.error (by decide))

/-- C6: `loadPackage` fails only when the package id is unknown; for any
existing package -- whatever its current status, `picked` not required -- it
succeeds, sets the assigned vehicle, moves the status to `loaded` and appends
exactly one `loaded` event. -/
theorem loadPackage_no_precondition (st : WMSState) (id vid : String) (now : Nat) :
    (mapGet st id = none →
      loadPackage st id vid now = .error ("Package " ++ id ++ " not found")) ∧
    (∀ pkg, mapGet st id = some pkg →
      (loadPackage st id vid now).map (fun r =>
          ((mapGet r.1 id).map (fun p => (p.status, p.assignedVehicle,
            p.events.map PkgEvent.eventType)), r.2.status)) =
        .ok (some ("loaded", some vid, pkg.events.map PkgEvent.eventType ++ ["loaded"]),
          "loaded")) := by
  constructor
  · intro h
    simp only [loadPackage, assignPackageToVehicle, h]
  · intro pkg hget
    simp only [loadPackage, assignPackageToVehicle, hget, Pkg.assignToVehicle,
      Pkg.updateStatus]
    rw [if_pos (by decide)]
    simp [Except.map, mapGet_set_self, Pkg.addEvent]

/-- Witness for C6: loading an unknown id fails; loading a package that was
only received (never picked) succeeds and loads it. -/
theorem loadPackage_no_precondition_witness :
    loadPackage [] "PKG9" "VH001" 0 = .error "Package PKG9 not found" ∧
    (loadPackage [("PKG1", newPackage "PKG1" "C1" "O1" ["a"] (some "Addr") 0)] "PKG1"
        "VH001" 1).map (fun r =>
        ((mapGet r.1 "PKG1").map (fun p => (p.status, p.assignedVehicle,
          p.events.map PkgEvent.eventType)), r.2.status)) =
      .ok (some ("loaded", some "VH001", ["received", "loaded"]), "loaded") :=
  ⟨((loadPackage_no_precondition [] "PKG9" "VH001" 0).1 rfl).trans
      (congrArg Except.error (by decide)),
   ((loadPackage_no_precondition [("PKG1", newPackage "PKG1" "C1" "O1" ["a"]
        (some "Addr") 0)] "PKG1" "VH001" 1).2
      (newPackage "PKG1" "C1" "O1" ["a"] (some "Addr") 0) (by decide)).trans (by decide)⟩

theorem statusRank_le_three (s : String) : statusRank s ≤ 3 := by
  unfold statusRank
  split
  · omega
  split
  · omega
  split <;> omega

/-- Appending an event for the package's current status keeps the event-rank
sequence non-decreasing and the last event aligned with the status. -/
theorem invc_addEvent (p0 : Pkg) (oldStatus desc : String) (now : Nat)
    (h1 : (eventRanks p0).Chain' (· ≤ ·))
    (h2 : (p0.events.getLast?).map PkgEvent.eventType = some oldStatus)
    (hle : statusRank oldStatus ≤ statusRank p0.status) :
    (eventRanks (p0.addEvent p0.status desc now)).Chain' (· ≤ ·) ∧
    ((p0.addEvent p0.status desc now).events.getLast?).map PkgEvent.eventType =
      some (p0.addEvent p0.status desc now).status := by
  obtain ⟨e, he, het⟩ : ∃ e, p0.events.getLast? = some e ∧ e.eventType = oldStatus := by
    cases hl : p0.events.getLast? with
    | none => rw [hl] at h2; simp at h2
    | some e =>
      rw [hl] at h2
      simp only [Option.map_some', Option.some.injEq] at h2
      exact ⟨e, rfl, h2⟩
  constructor
  · have hev' : (p0.addEvent p0.status desc now).events =
        p0.events ++
          [{ eventType := p0.status, description := desc, timestamp := now,
             location := p0.location }] := rfl
    unfold eventRanks at h1 ⊢
    rw [hev', List.map_append, List.chain'_append]
    refine ⟨h1, by simp, ?_⟩
    intro x hx y hy
    simp only [List.map_cons, List.map_nil, List.head?_cons, Option.mem_def,
      Option.some.injEq] at hy
    rw [List.getLast?_map] at hx
    simp only [Option.mem_def, Option.map_eq_some'] at hx
    obtain ⟨e', he', hxe⟩ := hx
    rw [he] at he'
    cases he'
    rw [← hxe, ← hy, het]
    exact hle
  · unfold Pkg.addEvent
    simp [List.getLast?_concat]

/-- Replacing the package at `id` by one obtained from it by a status update
whose new status rank is not below the old preserves the store invariant. -/
theorem storeInv_set_update (st : WMSState) (id : String) (pkg p0 : Pkg) (desc : String)
    (now : Nat) (hInv : storeInv st) (hmem : (id, pkg) ∈ st)
    (hev : p0.events = pkg.events)
    (hle : statusRank pkg.status ≤ statusRank p0.status) :
    storeInv (mapSet st id (p0.addEvent p0.status desc now)) := by
  intro kv hkv
  rcases mem_mapSet hkv with h | h
  · exact hInv kv h
  · subst h
    obtain ⟨h1, h2⟩ := hInv (id, pkg) hmem
    exact invc_addEvent p0 pkg.status desc now
      (by unfold eventRanks at h1 ⊢; rw [hev]; exact h1)
      (by rw [hev]; exact h2) hle

theorem storeInv_step (st : WMSState) (op : WMSOp) (hInv : storeInv st)
    (hg : opGuard st op = true) : storeInv (stepOp st op) := by
  cases op with
  | receive d now =>
    cases hcond : (d.packageId == "" || d.clientId == "") with
    | true =>
      simp only [stepOp, applyOp, receivePackage, hcond, if_true]
      exact hInv
    | false =>
      simp only [stepOp, applyOp, receivePackage, hcond, if_false]
      intro kv hkv
      rcases mem_mapSet hkv with h | h
      · exact hInv kv h
      · subst h
        constructor
        · simp [eventRanks, newPackage, Pkg.addEvent]
        · simp [newPackage, Pkg.addEvent]
  | store id loc now =>
    cases hget : mapGet st id with
    | none =>
      simp only [stepOp, applyOp, storePackage, updatePackageStatus, hget]
      exact hInv
    | some pkg =>
      have hmem := mapGet_mem hget
      have hle : statusRank pkg.status ≤ statusRank "stored" := by
        have hg' : (match mapGet st id with
            | some pkg => pkg.status == "received" || pkg.status == "stored"
            | none => true) = true := hg
        rw [hget] at hg'
        simp only [Bool.or_eq_true, beq_iff_eq] at hg'
        rcases hg' with h | h <;> rw [h]
        all_goals decide
      simp only [stepOp, applyOp, storePackage, updatePackageStatus, hget,
        Pkg.updateStatus]
      rw [if_pos (by decide)]
      simp only [Except.map]
      exact storeInv_set_update st id pkg _ _ now hInv hmem rfl hle
  | pick id now =>
    cases hget : mapGet st id with
    | none =>
      simp only [stepOp, applyOp, pickPackage, hget]
      exact hInv
    | some pkg =>
      cases hstat : (pkg.status != "stored") with
      | true =>
        simp only [stepOp, applyOp, pickPackage, hget, hstat, if_true]
        exact hInv
      | false =>
        have heq : pkg.status = "stored" := by simpa using hstat
        have hmem := mapGet_mem hget
        have hle : statusRank pkg.status ≤ statusRank "picked" := by
          rw [heq]
          decide
        simp only [stepOp, applyOp, pickPackage, hget]
        rw [if_neg (by simp [hstat])]
        simp only [updatePackageStatus, hget, Pkg.updateStatus]
        rw [if_pos (by decide)]
        simp only [Except.map]
        exact storeInv_set_update st id pkg _ _ now hInv hmem rfl hle
  | load id vid now =>
    cases hget : mapGet st id with
    | none =>
      simp only [stepOp, applyOp, loadPackage, assignPackageToVehicle, hget]
      exact hInv
    | some pkg =>
      have hmem := mapGet_mem hget
      have hle : statusRank pkg.status ≤ statusRank "loaded" := by
        have := statusRank_le_three pkg.status
        rw [show statusRank "loaded" = 3 by decide]
        omega
      simp only [stepOp, applyOp, loadPackage, assignPackageToVehicle, hget,
        Pkg.assignToVehicle, Pkg.updateStatus]
      rw [if_pos (by decide)]
      simp only [Except.map]
      exact storeInv_set_update st id pkg _ _ now hInv hmem rfl hle

theorem runOps_inv (st : WMSState) (ops : List WMSOp) (hInv : storeInv st)
    (hg : guardedSeq st ops = true) : storeInv (runOps st ops) := by
  induction ops generalizing st with
  | nil => exact hInv
  | cons op rest ih =>
    rw [guardedSeq, Bool.and_eq_true] at hg
    exact ih _ (storeInv_step st op hInv hg.1) hg.2

/-- C4 amended: for operation sequences in which every `Store` is applied only
to a package currently `received` or `stored` (the caller-side guard; the code
itself never checks it), the sequence of status ranks in every package's event
history is non-decreasing.  Without that guard the property fails, as the
counterexample shows: `storePackage` and `loadPackage` apply no transition
guard, and a `Store` after `Load` appends a lower status. -/
theorem lifecycle_monotonicity (st : WMSState) (ops : List WMSOp)
    (hInv : storeInv st) (hg : guardedSeq st ops = true) :
    ∀ id pkg, mapGet (runOps st ops) id = some pkg →
      (eventRanks pkg).Chain' (· ≤ ·) := by
  intro id pkg hget
  exact ((runOps_inv st ops hInv hg) _ (mapGet_mem hget)).1

/-- Witness for the amended C4 on the guarded sequence receive, store, pick,
load from the empty store. -/
theorem lifecycle_monotonicity_witness :
    (eventRanks ((mapGet (runOps [] [WMSOp.receive demoData 0, WMSOp.store "PKG1" "A1" 1,
        WMSOp.pick "PKG1" 2, WMSOp.load "PKG1" "VH001" 3]) "PKG1").getD
      (newPackage "P" "C" "O" [] none 0))).Chain' (· ≤ ·) :=
  lifecycle_monotonicity [] [WMSOp.receive demoData 0, WMSOp.store "PKG1" "A1" 1,
      WMSOp.pick "PKG1" 2, WMSOp.load "PKG1" "VH001" 3]
    (fun kv hkv => absurd hkv (List.not_mem_nil kv)) (by decide) "PKG1" _ (by decide)

/-- C4 counterexample: the operation sequence receive, store, pick, load,
store all succeeds, and afterwards the event history of `PKG1` carries the
status ranks received, stored, picked, loaded, stored -- not non-decreasing:
the engine lets `Store` follow `Load`. -/
theorem lifecycle_monotonicity_counterexample :
    (mapGet (runOps [] demoOps) "PKG1").map eventRanks = some [0, 1, 2, 3, 1] ∧
    ¬ ([0, 1, 2, 3, 1] : List Nat).Chain' (· ≤ ·) := by
  refine ⟨by decide, ?_⟩
  simp [List.chain'_cons]

/-- C9: when a tracked request times out, the poll step deletes its
`pendingRequests` entry, returning the pending map exactly to its prior state;
a matching `STS_RSP` arriving after the timeout is dropped by
`handleStatusResponse` without changing any state -- in particular the
stored-response map is unchanged for that correlation id. -/
theorem timeout_cleanup_discards_late_response (s0 : AdapterState) (r : String)
    (t0 timeout now : Nat) (p : List Nat)
    (hfresh : mapHas s0.pendingRequests r = false)
    (hnoresp : mapGet s0.tcpResponses r = none)
    (htime : now - t0 > timeout) :
    (checkResponse (sendTracked s0 r t0) r t0 timeout now).2 = PollResult.timedOut ∧
    (checkResponse (sendTracked s0 r t0) r t0 timeout now).1.pendingRequests =
      s0.pendingRequests ∧
    mapHas (checkResponse (sendTracked s0 r t0) r t0 timeout now).1.pendingRequests r =
      false ∧
    handleStatusResponse (checkResponse (sendTracked s0 r t0) r t0 timeout now).1 r p =
      (checkResponse (sendTracked s0 r t0) r t0 timeout now).1 := by
  have hpend : mapDelete (mapSet s0.pendingRequests r t0) r = s0.pendingRequests := by
    rw [mapSet_of_not_has _ _ _ hfresh, mapDelete_append_singleton,
        mapDelete_of_not_has _ _ hfresh]
  have hstate : checkResponse (sendTracked s0 r t0) r t0 timeout now =
      ({ s0 with pendingRequests := mapDelete (mapSet s0.pendingRequests r t0) r },
        PollResult.timedOut) := by
    simp only [checkResponse, sendTracked, hnoresp]
    rw [if_pos htime]
  refine ⟨by rw [hstate], ?_, ?_, ?_⟩
  · rw [hstate]
    exact hpend
  · rw [hstate]
    exact mapHas_delete _ r
  · rw [hstate]
    unfold handleStatusResponse
    rw [if_neg (by simp [mapHas_delete])]

/-- Witness for C9 on a concrete adapter state and request id. -/
theorem timeout_cleanup_discards_late_response_witness :
    (checkResponse (sendTracked ⟨[], []⟩ "req1" 0) "req1" 0 50 100).2 =
      PollResult.timedOut ∧
    (checkResponse (sendTracked ⟨[], []⟩ "req1" 0) "req1" 0 50 100).1.pendingRequests =
      [] ∧
    mapHas (checkResponse
        (sendTracked ⟨[], []⟩ "req1" 0) "req1" 0 50 100).1.pendingRequests "req1" =
      false ∧
    handleStatusResponse
        (checkResponse (sendTracked ⟨[], []⟩ "req1" 0) "req1" 0 50 100).1 "req1" [1] =
      (checkResponse (sendTracked ⟨[], []⟩ "req1" 0) "req1" 0 50 100).1 :=
  timeout_cleanup_discards_late_response ⟨[], []⟩ "req1" 0 50 100 [1] rfl rfl (by decide)

